import Mathlib

/-
Verification of the stetson reactive store core (thoughtspile/stetson).

The core under scrutiny is the change-tracking and flush-scheduling engine:

  const s = writable(value);
  let dirty;
  const flush = () => dirty && (dirty = s.set(value));
  const invalidate = async () => !dirty && ((dirty = s), await s, flush());

together with the value accessor (getter/setter plus a Proxy over object
values) and the action binder

  res[k] = (...args) => {
    const res = boundActions[k](...args);
    flush();
    return res && res.finally ? res.finally(flush) : res;
  };

The repository holds two variants of the implementation: the one in
src/sample.ts (Proxy handlers reading the closure variable `value`, the
`value` getter returning `valueProxy`, and a `finally(flush)` settlement
hook) and the one in src/unnamed/part_001 (the getter returns the raw
value, `makeStateProxy` rebuilds the proxy on every reassignment, and the
wrapper returns the action result without a settlement hook).  Both are
embedded below where they differ; the scheduler lines are identical in
the two variants.
-/

namespace Stetson

/-- Scheduler state of one container: the closure variable `value`, the
dirty token, the number of queued `flush` microtask continuations (each
successful `invalidate` queues one via `await s`), the underlying
writable's stored value, and the log of `s.set` notification payloads
pushed to subscribers so far. -/
structure St (V : Type) where
  value : V
  dirty : Bool
  pending : Nat
  stored : V
  notifs : List V
deriving Repr, DecidableEq

variable {V E A : Type}

/-- Fresh container right after `writable(value)`: clean token, nothing
queued, nothing notified. -/
def init (v : V) : St V :=
  ⟨v, false, 0, v, []⟩

/-- Embeds `const flush = () => dirty && (dirty = s.set(value))`: when the
token is pending, push the current closure `value` to the writable
(notifying subscribers) and reset the token (`s.set` returns undefined). -/
def flush (σ : St V) : St V :=
  if σ.dirty then
    { σ with stored := σ.value, notifs := σ.notifs ++ [σ.value], dirty := false }
  else σ

/-- Embeds `const invalidate = async () => !dirty && ((dirty = s), await s, flush())`:
when the token is clean, set it pending and queue one `flush` continuation
on the microtask queue; when already pending, do nothing. -/
def invalidate (σ : St V) : St V :=
  if σ.dirty then σ else { σ with dirty := true, pending := σ.pending + 1 }

/-- One synchronous mutation signal: the tracker (or the accessor setter)
calls `invalidate` and then the value is transformed.  `f` covers tracked
property reads (`f = id`), tracked property writes, and wholesale
reassignment through the accessor setter. -/
def applySig (σ : St V) (f : V → V) : St V :=
  let σ1 := invalidate σ
  { σ1 with value := f σ1.value }

/-- A synchronous stretch of action code, as the list of mutation signals
it performs in order. -/
def runBody (σ : St V) (body : List (V → V)) : St V :=
  body.foldl applySig σ

/-- Apply a list of mutation signals to a bare value (the net effect the
signals have on the Value). -/
def appAll (v : V) (fs : List (V → V)) : V :=
  fs.foldl (fun w f => f w) v

/-- Run `n` queued `flush` continuations in sequence. -/
def flushN : Nat → St V → St V
  | 0, σ => σ
  | n + 1, σ => flushN n (flush σ)

/-- Drain the microtask queue: every queued continuation executes
`flush()` once. -/
def drain (σ : St V) : St V :=
  { flushN σ.pending σ with pending := 0 }

/-- The bound action wrapper, synchronous part (both variants):
`const res = boundActions[k](...args); flush();` — run the body, then
force a flush before returning to the caller. -/
def callAction (σ : St V) (body : List (V → V)) : St V :=
  flush (runBody σ body)

/- ### Basic lemmas about the scheduler -/

theorem invalidate_value (σ : St V) : (invalidate σ).value = σ.value := by
  unfold invalidate; split <;> rfl

theorem invalidate_notifs (σ : St V) : (invalidate σ).notifs = σ.notifs := by
  unfold invalidate; split <;> rfl

theorem invalidate_of_dirty (σ : St V) (h : σ.dirty = true) : invalidate σ = σ := by
  unfold invalidate; simp [h]

theorem flush_dirty (σ : St V) : (flush σ).dirty = false := by
  unfold flush; split <;> simp_all

theorem flush_of_clean (σ : St V) (h : σ.dirty = false) : flush σ = σ := by
  unfold flush; simp [h]

theorem flush_value (σ : St V) : (flush σ).value = σ.value := by
  unfold flush; split <;> rfl

theorem flush_pending (σ : St V) : (flush σ).pending = σ.pending := by
  unfold flush; split <;> rfl

theorem flush_flush (σ : St V) : flush (flush σ) = flush σ :=
  flush_of_clean _ (flush_dirty σ)

theorem flushN_succ_eq_flush (n : Nat) (σ : St V) : flushN (n + 1) σ = flush σ := by
  induction n generalizing σ with
  | zero => rfl
  | succ n ih =>
      show flushN (n + 1) (flush σ) = flush σ
      rw [ih (flush σ), flush_flush]

/-- Running a synchronous body while the token is already pending only
transforms the value: every `invalidate` inside is a no-op. -/
theorem runBody_of_dirty (body : List (V → V)) (σ : St V) (h : σ.dirty = true) :
    runBody σ body = { σ with value := appAll σ.value body } := by
  induction body generalizing σ with
  | nil => rfl
  | cons f rest ih =>
      show runBody (applySig σ f) rest = _
      have hs : applySig σ f = { σ with value := f σ.value } := by
        unfold applySig; rw [invalidate_of_dirty σ h]
      rw [hs, ih _ (by simp [h])]
      rfl

/-- Running a nonempty synchronous body from a clean token: the first
signal sets the token pending and queues exactly one flush continuation;
the rest only transform the value. -/
theorem runBody_of_clean (f : V → V) (rest : List (V → V)) (σ : St V)
    (h : σ.dirty = false) :
    runBody σ (f :: rest) =
      { σ with dirty := true, pending := σ.pending + 1,
               value := appAll σ.value (f :: rest) } := by
  show runBody (applySig σ f) rest = _
  have hs : applySig σ f =
      { σ with dirty := true, pending := σ.pending + 1, value := f σ.value } := by
    unfold applySig invalidate; simp [h]
  rw [hs, runBody_of_dirty _ _ (by simp)]
  rfl

/-- C1: for every action call whose body performs at least one synchronous
mutation signal and no asynchronous continuation, subscribers receive
exactly one notification for that call — delivered by the forced flush and
carrying the final value — and the later scheduled checkpoint is a no-op. -/
theorem c1_sync_batching (v0 : V) (body : List (V → V)) (h : body ≠ []) :
    (drain (callAction (init v0) body)).notifs = [appAll v0 body] ∧
    (drain (callAction (init v0) body)).stored = appAll v0 body := by
  obtain ⟨f, rest, rfl⟩ := List.exists_cons_of_ne_nil h
  have h1 : runBody (init v0) (f :: rest) =
      ⟨appAll v0 (f :: rest), true, 1, v0, []⟩ := by
    rw [runBody_of_clean f rest (init v0) rfl]
    rfl
  have h2 : drain (callAction (init v0) (f :: rest)) =
      ⟨appAll v0 (f :: rest), false, 0, appAll v0 (f :: rest),
        [appAll v0 (f :: rest)]⟩ := by
    unfold callAction
    rw [h1]
    rfl
  rw [h2]
  exact ⟨rfl, rfl⟩

/-- Witness for C1: the spec's concrete scenario — initial value 0, one
action doing `value = value + 1` three times, one call — yields exactly one
notification carrying the final value 3. -/
theorem c1_sync_batching_witness :
    (drain (callAction (init (0 : Nat))
        [fun v => v + 1, fun v => v + 1, fun v => v + 1])).notifs = [3] ∧
    (drain (callAction (init (0 : Nat))
        [fun v => v + 1, fun v => v + 1, fun v => v + 1])).stored = 3 := by
  have h := c1_sync_batching (0 : Nat)
    [fun v => v + 1, fun v => v + 1, fun v => v + 1] (by simp)
  simpa [appAll] using h

/- ### Throwing actions (both variants)

The wrapper is

  res[k] = (...args) => {
    const res = boundActions[k](...args);
    flush();
    ...
  };

with no try/finally: when `boundActions[k]` throws, the exception
propagates out of the wrapper at once and the `flush()` line is never
reached.  `body` lists the mutation signals the action performed before
its outcome; outcome `Except.error e` models a synchronous throw. -/

/-- Bound action wrapper applied to a body that either returns `a` or
throws `e` after performing its mutation signals: the forced flush runs
only on the non-throwing path. -/
def callActionE (σ : St V) (body : List (V → V)) (out : Except E A) :
    St V × Except E A :=
  let σ1 := runBody σ body
  match out with
  | Except.error e => (σ1, Except.error e)
  | Except.ok a => (flush σ1, Except.ok a)

/-- C2 counterexample: one mutation then a synchronous throw.  At the
moment control returns to the caller, no notification has been pushed, the
writable still stores the initial value, and the token is still pending —
the forced flush of step 2 did not run before control returned, contrary
to the claim. -/
theorem c2_sync_throw_counterexample :
    (callActionE (init (0 : Nat)) [fun v => v + 1]
        (Except.error (0 : Nat) : Except Nat Unit)).1.notifs = [] ∧
    (callActionE (init (0 : Nat)) [fun v => v + 1]
        (Except.error (0 : Nat) : Except Nat Unit)).1.stored = 0 ∧
    (callActionE (init (0 : Nat)) [fun v => v + 1]
        (Except.error (0 : Nat) : Except Nat Unit)).1.dirty = true ∧
    (callActionE (init (0 : Nat)) [fun v => v + 1]
        (Except.error (0 : Nat) : Except Nat Unit)).2 = Except.error 0 := by
  refine ⟨rfl, rfl, rfl, rfl⟩

/-- C2 amended: when a bound action throws synchronously, the error
propagates unchanged to the caller and the forced flush is skipped; the
mutations performed before the throw remain applied to the Value and the
checkpoint flush their `invalidate` scheduled still delivers the partial
update at the next microtask checkpoint — no rollback. -/
theorem c2_sync_throw_amended (v0 : V) (body : List (V → V)) (e : E)
    (h : body ≠ []) :
    (callActionE (init v0) body (Except.error e : Except E A)).2 =
      Except.error e ∧
    (callActionE (init v0) body (Except.error e : Except E A)).1.notifs = [] ∧
    (drain (callActionE (init v0) body (Except.error e : Except E A)).1).notifs =
      [appAll v0 body] := by
  obtain ⟨f, rest, rfl⟩ := List.exists_cons_of_ne_nil h
  have h1 : runBody (init v0) (f :: rest) =
      ⟨appAll v0 (f :: rest), true, 1, v0, []⟩ := by
    rw [runBody_of_clean f rest (init v0) rfl]
    rfl
  refine ⟨rfl, ?_, ?_⟩
  · show (runBody (init v0) (f :: rest)).notifs = []
    rw [h1]
  · show (drain (runBody (init v0) (f :: rest))).notifs = [appAll v0 (f :: rest)]
    rw [h1]
    rfl

/-- Witness for C2's amended theorem at the concrete throwing action
`value = value + 1; throw`. -/
theorem c2_sync_throw_amended_witness :
    (callActionE (init (0 : Nat)) [fun v => v + 1]
        (Except.error (7 : Nat) : Except Nat Unit)).2 = Except.error 7 ∧
    (callActionE (init (0 : Nat)) [fun v => v + 1]
        (Except.error (7 : Nat) : Except Nat Unit)).1.notifs = [] ∧
    (drain (callActionE (init (0 : Nat)) [fun v => v + 1]
        (Except.error (7 : Nat) : Except Nat Unit)).1).notifs = [1] := by
  have h := c2_sync_throw_amended (0 : Nat) [fun v => v + 1] (7 : Nat)
    (A := Unit) (by simp)
  simpa [appAll] using h

/- ### Asynchronous settlement (sample.ts variant)

  return res && res.finally ? res.finally(flush) : res;

When the action returns a thenable, `finally(flush)` forces a second
flush when it settles — on fulfilment and on rejection alike — and the
derived thenable settles with the original outcome (the callback returns
normally, so `Promise.prototype.finally` passes the value through and
rethrows the original rejection reason). -/

/-- Awaited continuation stages of an asynchronous action: each stage is a
synchronous stretch of mutation signals followed by a microtask
checkpoint (the queue drains whenever the action suspends). -/
def runSegs (σ : St V) : List (List (V → V)) → St V
  | [] => σ
  | seg :: rest => runSegs (drain (runBody σ seg)) rest

/-- Full lifecycle of a bound asynchronous action in the sample.ts
variant: synchronous part `sb` then the forced flush, the awaited stages
`segs`, and at settlement the `finally(flush)` hook followed by delivery
of the original outcome `o` to the caller. -/
def boundAsyncCall (σ : St V) (sb : List (V → V)) (segs : List (List (V → V)))
    (o : Except E A) : St V × Except E A :=
  let σ1 := flush (runBody σ sb)
  let σ2 := runSegs σ1 segs
  (flush σ2, o)

/-- Full lifecycle of a bound asynchronous action in the part_001 variant,
whose wrapper is `const res = boundActions[k](...args); flush(); return
res;`: no settlement hook is attached to the returned thenable.  `ab`
lists the mutation signals performed by a continuation the action itself
attached to its thenable, which runs at settlement ahead of the caller's
continuation (the caller received the very same thenable, so its reaction
is queued behind the action's own, and behind it the checkpoint the
mutation schedules).  The state paired with the outcome is the container
as the caller's continuation observes it at settlement. -/
def boundAsyncCallIndex (σ : St V) (sb : List (V → V))
    (segs : List (List (V → V))) (ab : List (V → V)) (o : Except E A) :
    St V × Except E A :=
  let σ1 := flush (runBody σ sb)
  let σ2 := runSegs σ1 segs
  (runBody σ2 ab, o)

theorem drain_of_clean (σ : St V) (h : σ.dirty = false) :
    drain σ = { σ with pending := 0 } := by
  unfold drain
  cases hp : σ.pending with
  | zero => rfl
  | succ n => rw [flushN_succ_eq_flush, flush_of_clean σ h]

theorem drain_of_queued (σ : St V) (n : Nat) (h : σ.pending = n + 1) :
    drain σ = { flush σ with pending := 0 } := by
  unfold drain
  rw [h, flushN_succ_eq_flush]

/-- After a flush and a drain of whatever continuations are queued, the
container is synchronised: the writable stores the latest value and the
token is clean.  `runSegs` preserves this. -/
theorem runSegs_synced (segs : List (List (V → V))) (σ : St V)
    (h1 : σ.stored = σ.value) (h2 : σ.dirty = false) :
    (runSegs σ segs).value = segs.foldl appAll σ.value ∧
    (runSegs σ segs).stored = (runSegs σ segs).value ∧
    (runSegs σ segs).dirty = false := by
  induction segs generalizing σ with
  | nil => exact ⟨rfl, h1, h2⟩
  | cons seg rest ih =>
      cases seg with
      | nil =>
          have hd : drain (runBody σ []) = { σ with pending := 0 } :=
            drain_of_clean σ h2
          show (runSegs (drain (runBody σ [])) rest).value = _ ∧
              (runSegs (drain (runBody σ [])) rest).stored =
                (runSegs (drain (runBody σ [])) rest).value ∧
              (runSegs (drain (runBody σ [])) rest).dirty = false
          rw [hd]
          exact ih { σ with pending := 0 } h1 h2
      | cons f fs =>
          have hb : runBody σ (f :: fs) =
              { σ with dirty := true, pending := σ.pending + 1,
                       value := appAll σ.value (f :: fs) } :=
            runBody_of_clean f fs σ h2
          have hp : (runBody σ (f :: fs)).pending = σ.pending + 1 := by
            rw [hb]
          have hd : drain (runBody σ (f :: fs)) =
              { flush (runBody σ (f :: fs)) with pending := 0 } :=
            drain_of_queued _ _ hp
          have hf : flush (runBody σ (f :: fs)) =
              ⟨appAll σ.value (f :: fs), false, σ.pending + 1,
                appAll σ.value (f :: fs),
                σ.notifs ++ [appAll σ.value (f :: fs)]⟩ := by
            rw [hb]
            rfl
          show (runSegs (drain (runBody σ (f :: fs))) rest).value = _ ∧
              (runSegs (drain (runBody σ (f :: fs))) rest).stored =
                (runSegs (drain (runBody σ (f :: fs))) rest).value ∧
              (runSegs (drain (runBody σ (f :: fs))) rest).dirty = false
          rw [hd, hf]
          exact ih ⟨appAll σ.value (f :: fs), false, 0, appAll σ.value (f :: fs),
            σ.notifs ++ [appAll σ.value (f :: fs)]⟩ rfl rfl

/-- C3 counterexample: the claim quantifies over every bound action, but
part_001's binder returns the thenable with no settlement flush attached.
Concretely: initial value 0, sync part `value = value + 1` (pushed as the
notification 1 by the forced flush), and a continuation the action
attached to its returned thenable doing `value = value + 1` at
settlement.  The caller's continuation then observes value 2 with a
pending token, the writable still storing 1 and no second notification:
no second forced flush ran after the thenable settled, refuting the claim
as stated (the outcome does reach the caller unchanged, and only the
later scheduled checkpoint delivers the final update). -/
theorem c3_no_settlement_flush_counterexample :
    (boundAsyncCallIndex (init (0 : Nat)) [fun v => v + 1] []
        [fun v => v + 1] (Except.ok () : Except Unit Unit)).2 = Except.ok () ∧
    (boundAsyncCallIndex (init (0 : Nat)) [fun v => v + 1] []
        [fun v => v + 1] (Except.ok () : Except Unit Unit)).1.value = 2 ∧
    (boundAsyncCallIndex (init (0 : Nat)) [fun v => v + 1] []
        [fun v => v + 1] (Except.ok () : Except Unit Unit)).1.dirty = true ∧
    (boundAsyncCallIndex (init (0 : Nat)) [fun v => v + 1] []
        [fun v => v + 1] (Except.ok () : Except Unit Unit)).1.stored = 1 ∧
    (boundAsyncCallIndex (init (0 : Nat)) [fun v => v + 1] []
        [fun v => v + 1] (Except.ok () : Except Unit Unit)).1.notifs = [1] ∧
    (drain (boundAsyncCallIndex (init (0 : Nat)) [fun v => v + 1] []
        [fun v => v + 1] (Except.ok () : Except Unit Unit)).1).notifs =
      [1, 2] := by
  refine ⟨rfl, rfl, rfl, rfl, rfl, rfl⟩

/-- C3 amended: for every bound action of the sample.ts binder
(`res.finally(flush)`) whose return value is a thenable, a second forced
flush runs after the thenable settles — on success and failure alike —
leaving the writable storing the final Value with a clean token, and the
original settlement outcome reaches the caller unchanged; the part_001
binder returns the thenable bare, so there the final continuation
mutations reach subscribers only through the scheduled checkpoint, after
the caller's own settlement continuation has already run. -/
theorem c3_settlement_hook (v0 : V) (sb : List (V → V))
    (segs : List (List (V → V))) (o : Except E A) :
    (boundAsyncCall (init v0) sb segs o).2 = o ∧
    (boundAsyncCall (init v0) sb segs o).1.stored =
      segs.foldl appAll (appAll v0 sb) ∧
    (boundAsyncCall (init v0) sb segs o).1.dirty = false := by
  have hsync : (flush (runBody (init v0) sb)).stored =
        (flush (runBody (init v0) sb)).value ∧
      (flush (runBody (init v0) sb)).dirty = false ∧
      (flush (runBody (init v0) sb)).value = appAll v0 sb := by
    cases sb with
    | nil => exact ⟨rfl, rfl, rfl⟩
    | cons f fs =>
        rw [runBody_of_clean f fs (init v0) rfl]
        refine ⟨rfl, rfl, rfl⟩
  obtain ⟨hs1, hs2, hs3⟩ := hsync
  obtain ⟨hv, hst, hd⟩ := runSegs_synced segs _ hs1 hs2
  refine ⟨rfl, ?_, ?_⟩
  · show (flush (runSegs (flush (runBody (init v0) sb)) segs)).stored = _
    cases hdt : (runSegs (flush (runBody (init v0) sb)) segs).dirty with
    | false =>
        rw [flush_of_clean _ hdt, hst, hv, hs3]
    | true => rw [hd] at hdt; cases hdt
  · show (flush (runSegs (flush (runBody (init v0) sb)) segs)).dirty = false
    exact flush_dirty _

/- ### The dirty token and duplicate scheduling (both variants) -/

/-- C6 counterexample: two bound actions called back to back in one
synchronous stretch.  The first action's `invalidate` queues a flush
continuation; the forced flush at the end of that call resets the token
without dequeuing the continuation; the second action's `invalidate` then
queues another one.  Two flush continuations are now scheduled at the same
time, refuting "at most one flush is scheduled at a time per container" —
yet draining them produces no duplicate notification. -/
theorem c6_counterexample :
    (callAction (callAction (init (0 : Nat)) [fun v => v + 1])
        [fun v => v + 1]).pending = 2 ∧
    (drain (callAction (callAction (init (0 : Nat)) [fun v => v + 1])
        [fun v => v + 1])).notifs = [1, 2] := by
  refine ⟨rfl, rfl⟩

/-- C6 amended: while the Dirty Token is pending, `invalidate` is a no-op
that schedules nothing additional, so at most one flush is scheduled per
pending window; a forced flush can leave a previously queued checkpoint
flush outstanding (so two can briefly coexist), but any backlog of queued
flush continuations collapses to a single `flush`, so a double notification
from duplicate scheduling is impossible. -/
theorem c6_token_guard (σ : St V) :
    (σ.dirty = true → invalidate σ = σ ∧ (invalidate σ).pending = σ.pending) ∧
    (∀ n : Nat, flushN (n + 1) σ = flush σ) := by
  refine ⟨fun h => ⟨invalidate_of_dirty σ h, ?_⟩, fun n => flushN_succ_eq_flush n σ⟩
  rw [invalidate_of_dirty σ h]

/-- Witness for C6's amended theorem: applied at a pending state with one
queued continuation, and at a backlog of three queued flushes. -/
theorem c6_token_guard_witness :
    invalidate (⟨(5 : Nat), true, 1, 0, []⟩ : St Nat) = ⟨5, true, 1, 0, []⟩ ∧
    flushN 3 (⟨(5 : Nat), true, 1, 0, []⟩ : St Nat) =
      flush ⟨5, true, 1, 0, []⟩ :=
  ⟨((c6_token_guard ⟨5, true, 1, 0, []⟩).1 rfl).1,
    (c6_token_guard ⟨5, true, 1, 0, []⟩).2 2⟩

/- ### Flushes always push the latest Value (both variants)

`flush` reads the closure variable `value` at the moment it runs
(`s.set(value)`); the machine keeps no snapshot anywhere. -/

/-- An event in the life of one container: a mutation signal, a forced
flush from the action binder, or a scheduled checkpoint running one queued
continuation. -/
inductive Ev (V : Type) where
  | sig (f : V → V)
  | force
  | checkpoint

/-- Step of the container machine for one event. -/
def stepEv (σ : St V) : Ev V → St V
  | Ev.sig f => applySig σ f
  | Ev.force => flush σ
  | Ev.checkpoint =>
      if σ.pending = 0 then σ else { flush σ with pending := σ.pending - 1 }

/-- Run a list of events. -/
def runEv (σ : St V) (es : List (Ev V)) : St V :=
  es.foldl stepEv σ

/-- The mutation signals contained in an event list, in order. -/
def sigsOf (es : List (Ev V)) : List (V → V) :=
  es.filterMap (fun e => match e with | Ev.sig f => some f | _ => none)

theorem applySig_value (σ : St V) (f : V → V) :
    (applySig σ f).value = f σ.value := by
  show f (invalidate σ).value = f σ.value
  rw [invalidate_value]

theorem flush_notifs (σ : St V) :
    (flush σ).notifs = σ.notifs ∨ (flush σ).notifs = σ.notifs ++ [σ.value] := by
  unfold flush
  split
  · right; rfl
  · left; rfl

/-- No event ever records a notification other than the machine's current
value: the state holds no snapshot anywhere a stale payload could come
from. -/
theorem stepEv_notifs (σ : St V) (e : Ev V) :
    (stepEv σ e).notifs = σ.notifs ∨
      (stepEv σ e).notifs = σ.notifs ++ [σ.value] := by
  cases e with
  | sig f => exact Or.inl (invalidate_notifs σ)
  | force => exact flush_notifs σ
  | checkpoint =>
      show (if σ.pending = 0 then σ
          else { flush σ with pending := σ.pending - 1 }).notifs = σ.notifs ∨
        (if σ.pending = 0 then σ
          else { flush σ with pending := σ.pending - 1 }).notifs =
            σ.notifs ++ [σ.value]
      split
      · exact Or.inl rfl
      · exact flush_notifs σ

theorem runEv_value (es : List (Ev V)) (σ : St V) :
    (runEv σ es).value = appAll σ.value (sigsOf es) := by
  induction es generalizing σ with
  | nil => rfl
  | cons e rest ih =>
      show (runEv (stepEv σ e) rest).value = _
      rw [ih]
      cases e with
      | sig f =>
          rw [show (stepEv σ (Ev.sig f)).value = f σ.value from applySig_value σ f]
          rfl
      | force =>
          rw [show (stepEv σ Ev.force).value = σ.value from flush_value σ]
          rfl
      | checkpoint =>
          have hv : (stepEv σ Ev.checkpoint).value = σ.value := by
            show (if σ.pending = 0 then σ
              else { flush σ with pending := σ.pending - 1 }).value = σ.value
            split
            · rfl
            · exact flush_value σ
          rw [hv]
          rfl

/-- C7: every flush — forced or checkpoint-triggered — pushes the Value as
it is at the moment the flush runs.  After any event history, the machine's
Value is the cumulative effect of all mutation signals so far (none
dropped), and the next event can only append a notification carrying
exactly that current Value — never a stale capture. -/
theorem c7_flush_latest (v0 : V) (es : List (Ev V)) (e : Ev V) :
    (runEv (init v0) es).value = appAll v0 (sigsOf es) ∧
    ((stepEv (runEv (init v0) es) e).notifs = (runEv (init v0) es).notifs ∨
      (stepEv (runEv (init v0) es) e).notifs =
        (runEv (init v0) es).notifs ++ [(runEv (init v0) es).value]) :=
  ⟨runEv_value es (init v0), stepEv_notifs (runEv (init v0) es) e⟩

/- ### Return values pass through the binder (C8)

part_001: `return res;` — the caller receives the very value the action
returned.  sample.ts: `return res && res.finally ? res.finally(flush) : res;`
— a non-thenable is returned as is, and a thenable is wrapped by
`Promise.prototype.finally`, which settles with the original outcome
because `flush` returns normally. -/

/-- A bound action's return value: a plain value (literal or object
reference, returned as is) or a thenable that settles with outcome `o`. -/
inductive Ret (E A : Type) where
  | val (a : A)
  | thenable (o : Except E A)

/-- Settlement of the thenable built by `Promise.prototype.finally` when
the callback returns normally: fulfilment passes the value through and
rejection rethrows the original reason. -/
def finallySettle (o : Except E A) : Except E A :=
  match o with
  | Except.ok a => Except.ok a
  | Except.error e => Except.error e

/-- Bound action wrapper of the sample.ts variant with the returned
payload made explicit: body, forced flush, then the return line. -/
def callActionRet (σ : St V) (body : List (V → V)) (r : Ret E A) :
    St V × Ret E A :=
  let σ1 := flush (runBody σ body)
  match r with
  | Ret.val a => (σ1, Ret.val a)
  | Ret.thenable o => (σ1, Ret.thenable (finallySettle o))

/-- C8: for every action, every body and every return value — a plain
value, a fulfilled thenable or a rejected thenable — the payload the
caller receives from the bound action is the action's own return value:
the binder never interprets, transforms, or consumes it. -/
theorem c8_return_passthrough (σ : St V) (body : List (V → V)) (r : Ret E A) :
    (callActionRet σ body r).2 = r := by
  cases r with
  | val a => rfl
  | thenable o => cases o with
      | ok a => rfl
      | error e => rfl

/- ### Public surface of the bound container (C9)

  const res = { subscribe: s.subscribe };
  for (const k in boundActions) {
    res[k] = (...args) => { ... };
  }
  return res;

Later assignments overwrite earlier ones, so an action named "subscribe"
returned by the builder would shadow the delegated subscription. -/

/-- An entry of the returned container: the store's own `subscribe`,
delegated verbatim, or a wrapped bound action. -/
inductive Entry (A : Type) where
  | sub
  | act (a : A)
deriving Repr, DecidableEq

/-- Last binding of key `k` in the builder's returned mapping (the
`for (const k in boundActions)` loop assigns in order, so the last
assignment to a name wins). -/
def lookupLast (acts : List (String × A)) (k : String) : Option A :=
  match acts with
  | [] => none
  | (k', a) :: rest =>
      match lookupLast rest k with
      | some b => some b
      | none => if k' = k then some a else none

/-- The property named `k` on the returned container object. -/
def resLookup (acts : List (String × A)) (k : String) : Option (Entry A) :=
  match lookupLast acts k with
  | some a => some (Entry.act a)
  | none => if k = "subscribe" then some Entry.sub else none

theorem lookupLast_isSome (acts : List (String × A)) (k : String) :
    (lookupLast acts k).isSome = true ↔ k ∈ acts.map Prod.fst := by
  induction acts with
  | nil => simp [lookupLast]
  | cons kv rest ih =>
      obtain ⟨k', a⟩ := kv
      simp only [lookupLast]
      cases hl : lookupLast rest k with
      | some b =>
          have hmem : k ∈ rest.map Prod.fst := by
            rw [← ih, hl]
            rfl
          exact ⟨fun _ => List.mem_cons_of_mem _ hmem, fun _ => rfl⟩
      | none =>
          have hnm : ¬ k ∈ rest.map Prod.fst := by
            rw [← ih, hl]
            simp
          show (if k' = k then some a else none).isSome = true ↔
            k ∈ ((k', a) :: rest).map Prod.fst
          by_cases hk : k' = k
          · subst hk
            simp
          · rw [if_neg hk]
            simp only [Option.isSome_none, Bool.false_eq_true, false_iff,
              List.map_cons, List.mem_cons]
            rintro (h | h)
            · exact hk h.symm
            · exact hnm h

/-- C9 counterexample: a builder that returns an action named
"subscribe".  The loop overwrites the delegated subscription, so the
container's `subscribe` property is the wrapped action, not the Underlying
Store's `subscribe` delegated verbatim, refuting the claim for this
builder. -/
theorem c9_counterexample :
    resLookup [("subscribe", (0 : Nat))] "subscribe" = some (Entry.act 0) ∧
    resLookup [("subscribe", (0 : Nat))] "subscribe" ≠ some Entry.sub := by
  refine ⟨rfl, by decide⟩

/-- C9 amended: the public surface of the returned container is exactly
`subscribe` plus the property names the builder returned and nothing else;
every entry other than the delegated `subscribe` is a bound action coming
from the builder (no set/update escape hatch), and `subscribe` is
delegated verbatim to the Underlying Store whenever the builder itself did
not return a property named "subscribe" (if it did, the bound action
shadows the delegated one). -/
theorem c9_surface (acts : List (String × A)) :
    (∀ k : String, (resLookup acts k).isSome = true ↔
      (k = "subscribe" ∨ k ∈ acts.map Prod.fst)) ∧
    ("subscribe" ∉ acts.map Prod.fst →
      resLookup acts "subscribe" = some Entry.sub) ∧
    (∀ (k : String) (a : A), resLookup acts k = some (Entry.act a) →
      k ∈ acts.map Prod.fst) := by
  refine ⟨fun k => ?_, fun h => ?_, fun k a h => ?_⟩
  · unfold resLookup
    cases hl : lookupLast acts k with
    | some b =>
        simp only [Option.isSome_some, true_iff]
        right
        rw [← lookupLast_isSome, hl]
        rfl
    | none =>
        have hnm : ¬ k ∈ acts.map Prod.fst := by
          rw [← lookupLast_isSome, hl]
          simp
        by_cases hk : k = "subscribe"
        · simp [hk]
        · simp [hk, hnm]
  · unfold resLookup
    cases hl : lookupLast acts "subscribe" with
    | some b =>
        exfalso
        apply h
        rw [← lookupLast_isSome, hl]
        rfl
    | none => rfl
  · unfold resLookup at h
    cases hl : lookupLast acts k with
    | some b =>
        rw [← lookupLast_isSome, hl]
        rfl
    | none =>
        rw [hl] at h
        by_cases hk : k = "subscribe" <;> simp [hk] at h

/-- Witness for C9's amended theorem at the builder of the repository's
counter example (`up`): the surface holds `up` and a verbatim `subscribe`,
and a name the builder did not return is absent. -/
theorem c9_surface_witness :
    (resLookup [("up", (0 : Nat))] "up").isSome = true ∧
    resLookup [("up", (0 : Nat))] "subscribe" = some Entry.sub ∧
    (resLookup [("up", (0 : Nat))] "set").isSome = false :=
  ⟨((c9_surface [("up", (0 : Nat))]).1 "up").mpr (Or.inr (by decide)),
    (c9_surface [("up", (0 : Nat))]).2.1 (by decide),
    by decide⟩

/- ### The value accessor and the Tracked View

JavaScript values held by the container, flattened to what the claims
need: null, a primitive, or an object with integer-valued fields. -/

/-- A container Value: null, a primitive number, or an object. -/
inductive JVal where
  | jnull
  | prim (n : Int)
  | obj (fields : List (String × Int))
deriving Repr, DecidableEq

/-- `value instanceof Object` for the values modelled here. -/
def JVal.isObject : JVal → Bool
  | JVal.obj _ => true
  | _ => false

/-- Property read, `value[p]`: a field of an object, nothing on a
primitive or null (where JavaScript yields undefined or throws). -/
def getProp : JVal → String → Option Int
  | JVal.obj fs, p => lookupLast fs p
  | _, _ => none

/-- Replace or append one field of a field list. -/
def setField : List (String × Int) → String → Int → List (String × Int)
  | [], p, v => [(p, v)]
  | (k, a) :: rest, p, v =>
      if k = p then (p, v) :: rest else (k, a) :: setField rest p v

/-- Property write, `value[p] = v`: updates an object in place; on a
primitive or null nothing is stored. -/
def setProp : JVal → String → Int → JVal
  | JVal.obj fs, p, v => JVal.obj (setField fs p v)
  | w, _, _ => w

/-- What the closure variable `valueProxy` currently holds: a Proxy (with
its construction-time target recorded) or a plain non-proxy value. -/
inductive View where
  | proxyOn (target : JVal)
  | raw (v : JVal)
deriving Repr, DecidableEq

/-- Build `valueProxy` from a value: `value instanceof Object ? new
Proxy(value, ...) : value` (this is both sample.ts's initialiser and
part_001's `makeStateProxy`). -/
def mkView (v : JVal) : View :=
  if v.isObject then View.proxyOn v else View.raw v

/-- Full container state: the scheduler core plus `valueProxy`. -/
structure SSt where
  core : St JVal
  view : View
deriving Repr, DecidableEq

/-- Container right after `stetson(v).actions(...)` starts: fresh core and
the initial `valueProxy`. -/
def sinit (v : JVal) : SSt :=
  ⟨init v, mkView v⟩

/-- sample.ts `set value(nextValue)`: invalidate, reassign the closure
variable, and update `valueProxy` only when the new value is not an
object (`!(value instanceof Object) && (valueProxy = value)`). -/
def setValueSample (σ : SSt) (nv : JVal) : SSt :=
  let c := invalidate σ.core
  let c2 : St JVal := { c with value := nv }
  if nv.isObject then ⟨c2, σ.view⟩ else ⟨c2, View.raw nv⟩

/-- part_001 `set value(nextValue)`: invalidate, reassign, and rebuild the
proxy unconditionally (`makeStateProxy()`). -/
def setValueIndex (σ : SSt) (nv : JVal) : SSt :=
  let c := invalidate σ.core
  let c2 : St JVal := { c with value := nv }
  ⟨c2, mkView nv⟩

/-- sample.ts `get value()` hands out the current `valueProxy`. -/
def getValueSample (σ : SSt) : View :=
  σ.view

/-- part_001 `get value()` hands out the raw closure variable `value`,
bypassing the proxy entirely. -/
def getValueIndex (σ : SSt) : JVal :=
  σ.core.value

/-- Proxy get handler, `get: (_, p) => { invalidate(); return value[p]; }`:
report a mutation signal, then read the property off the current closure
value — the construction-time target is ignored. -/
def proxyGet (σ : SSt) (p : String) : SSt × Option Int :=
  (⟨invalidate σ.core, σ.view⟩, getProp σ.core.value p)

/-- Proxy set handler, `set: (_, p, v) => { invalidate(); return
(value[p] = v); }`: report, then write through to the current closure
value. -/
def proxySet (σ : SSt) (p : String) (v : Int) : SSt :=
  ⟨{ invalidate σ.core with value := setProp σ.core.value p v }, σ.view⟩

/-- A property write performed on the raw value handed out by part_001's
getter: it mutates the object but reports nothing — no proxy is in the
access path. -/
def rawSet (σ : SSt) (p : String) (v : Int) : SSt :=
  ⟨{ σ.core with value := setProp σ.core.value p v }, σ.view⟩

/-- The bound action wrapper at the container level: run the body, then
force a flush. -/
def scall (σ : SSt) (body : SSt → SSt) : SSt :=
  let σ1 := body σ
  ⟨flush σ1.core, σ1.view⟩

/-- The bound action wrapper for a body that can throw (`Bool` is false
when the body threw): the forced flush runs only when the body returned. -/
def scallE (σ : SSt) (body : SSt → SSt × Bool) : SSt × Bool :=
  let r := body σ
  if r.2 then (⟨flush r.1.core, r.1.view⟩, true) else r

/-- Drain the microtask queue at the container level. -/
def sdrain (σ : SSt) : SSt :=
  ⟨drain σ.core, σ.view⟩

/- ### C4: lazy-object-init scenario (sample.ts variant)

  const store = stetson(null).actions((store) => ({
    init: () => (store.value = { count: 0 }),
    add: () => store.value.count++,
  }));
  store.init(); store.add();

(part_000's test "proxy is created after lazy object init".)  sample.ts's
setter leaves `valueProxy` untouched when the new value is an object, so
after `init()` the view is still the initial raw `null`. -/

/-- `init: () => (store.value = { count: 0 })` under the sample.ts
accessor. -/
def sampleInitAction (σ : SSt) : SSt :=
  setValueSample σ (JVal.obj [("count", 0)])

/-- `add: () => store.value.count++` under the sample.ts accessor:
`store.value` is the current `valueProxy`; through a proxy the increment
reads then writes `count` (reporting twice); on a raw non-object the
property access throws in strict mode and nothing happens. -/
def sampleAddAction (σ : SSt) : SSt × Bool :=
  match getValueSample σ with
  | View.proxyOn _ =>
      let r := proxyGet σ "count"
      (proxySet r.1 "count" (r.2.getD 0 + 1), true)
  | View.raw _ => (σ, false)

/-- C4, the code's divergence at the failing input: starting from
`stetson(null)`, after the `init()` call wholesale-replaces the Value with
the object `{count: 0}`, the Tracked View is NOT rebuilt — `valueProxy` is
still the stale raw `null` while the Value is an object — so the
subsequent `add()` finds no Tracked View (it throws on the raw null),
mutates nothing, and subscribers are never notified of `{count: 1}`:
exactly what the claim (and part_000's lazy-init test) rules out. -/
theorem c4_stale_view_after_replacement :
    (sdrain (scall (sinit JVal.jnull) sampleInitAction)).view =
      View.raw JVal.jnull ∧
    (sdrain (scall (sinit JVal.jnull) sampleInitAction)).core.value =
      JVal.obj [("count", 0)] ∧
    (scallE (sdrain (scall (sinit JVal.jnull) sampleInitAction))
      sampleAddAction).2 = false ∧
    (sdrain (scallE (sdrain (scall (sinit JVal.jnull) sampleInitAction))
      sampleAddAction).1).core.notifs = [JVal.obj [("count", 0)]] := by
  refine ⟨rfl, rfl, rfl, rfl⟩

/- ### C5: the part_001 getter hands out the raw value

  await test("mutation triggers update", () => {
    const store = stetson({ count: 0 }).actions(({ value }) => ({
      next: () => value.count++,
    }));
    ...
  });

Under part_001 the destructured `value` is the raw object (the getter
returns `value`, not `valueProxy`), so `value.count++` reports nothing. -/

/-- `next: () => value.count++` where `value` came from part_001's getter:
a raw read and a raw write, no mutation signal. -/
def indexNextAction (σ : SSt) : SSt :=
  let c := (getProp (getValueIndex σ) "count").getD 0
  rawSet σ "count" (c + 1)

/-- C5, the code's divergence at the failing input: with the object Value
`{count: 0}`, part_001's getter returns the raw Value even though a
Tracked View exists, so the property access inside `next()` reports no
mutation signal: the value is mutated to `{count: 1}` yet the token stays
clean and subscribers receive no notification — part_001's own embedded
test "mutation triggers update" (expecting a notification carrying
`{count: 1}`) fails. -/
theorem c5_raw_getter_divergence :
    getValueIndex (sinit (JVal.obj [("count", 0)])) =
      JVal.obj [("count", 0)] ∧
    (sinit (JVal.obj [("count", 0)])).view =
      View.proxyOn (JVal.obj [("count", 0)]) ∧
    (sdrain (scall (sinit (JVal.obj [("count", 0)])) indexNextAction)).core.value =
      JVal.obj [("count", 1)] ∧
    (sdrain (scall (sinit (JVal.obj [("count", 0)])) indexNextAction)).core.notifs =
      [] := by
  refine ⟨rfl, rfl, ?_, rfl⟩
  show JVal.obj (setField [("count", 0)] "count" (0 + 1)) = JVal.obj [("count", 1)]
  rfl

/- ### C10: a captured proxy forwards to the replacement Value
(sample.ts variant) -/

/-- C10: a Tracked View captured before an object-to-object wholesale
replacement still forwards every subsequent property read and write to the
replacement Value.  After `setValueSample` the view is the very proxy
built over the old object, yet its get handler reads the new object's
property (reporting a mutation signal first) and its set handler writes
into the new object — the handlers consult the closure variable, not the
construction-time target. -/
theorem c10_captured_proxy_forwards (fs fs' : List (String × Int))
    (p : String) (v : Int) :
    (setValueSample (sinit (JVal.obj fs)) (JVal.obj fs')).view =
      View.proxyOn (JVal.obj fs) ∧
    (proxyGet (setValueSample (sinit (JVal.obj fs)) (JVal.obj fs')) p).2 =
      getProp (JVal.obj fs') p ∧
    (proxyGet (setValueSample (sinit (JVal.obj fs)) (JVal.obj fs')) p).1.core.dirty =
      true ∧
    (proxySet (setValueSample (sinit (JVal.obj fs)) (JVal.obj fs')) p v).core.value =
      JVal.obj (setField fs' p v) := by
  refine ⟨rfl, rfl, rfl, rfl⟩

end Stetson
